import Mathlib

/-
  Verification development for the cryoatom-cryosparc-tools pipeline.

  Shallow embedding of the three scripts:
    run_cryoatom.py          (map extraction, workspace staging, tool invocation)
    run_cryoatom_auto.py     (GPU auto-selection, publish back to the job directory)
    cryoatom_external_job.py (External Job wrapper, artifact resolution)

  Conventions:
  - Machine floats of the telemetry parser are modelled by rational numbers;
    the comparisons in question are exact tuple comparisons, as in the source.
  - Filesystem and network effects are modelled by explicit world records:
    Boolean success flags for each external call, a predicate for file
    existence, and an explicit event trace for every mutating step.
  - Path strings follow the posixpath joining rules used by pathlib; the
    resolve step is modelled by lexical normalization of the path string.
-/

namespace Cryoatom

/- ===================== path model (pathlib) ===================== -/

def isAbsolute (s : String) : Bool :=
  match s.data with
  | [] => false
  | c :: _ => c = '/'

def endsWithSlash (s : String) : Bool :=
  match s.data.getLast? with
  | none => false
  | some c => c = '/'

/-- Joining rule of pathlib: an absolute right operand replaces the left one,
otherwise the two are joined with a single separator. -/
def pyJoin (parent child : String) : String :=
  if isAbsolute child then child
  else if parent = ("") then child
  else if endsWithSlash parent then parent ++ child
  else parent ++ ("/") ++ child

/-- Split a string on the separator character, structurally on the character
list so that concrete instances reduce inside the kernel. -/
def splitSlashAux : List Char → List Char → List String
  | [], acc => [String.mk acc.reverse]
  | c :: cs, acc =>
    if c = '/' then String.mk acc.reverse :: splitSlashAux cs []
    else splitSlashAux cs (c :: acc)

def pathComponents (s : String) : List String :=
  splitSlashAux s.data []

/-- One step of lexical normalization: empty and dot components vanish, a
dot-dot component removes the previous component, anything else is kept. -/
def normStack (acc : List String) (c : String) : List String :=
  if c = ("") then acc
  else if c = (".") then acc
  else if c = ("..") then acc.dropLast
  else acc ++ [c]

def joinSlash : List String → String
  | [] => ("")
  | [x] => x
  | x :: y :: xs => x ++ ("/") ++ joinSlash (y :: xs)

/-- Lexical normalization of an absolute path string, the pure-model analogue
of the resolve step of pathlib on an absolute path. -/
def normAbs (s : String) : String :=
  ("/") ++ joinSlash ((pathComponents s).foldl normStack [])

/-- Model of the resolve call of pathlib: an absolute path is normalized in
place, a relative one is first joined with the current working directory. -/
def pyResolve (cwd p : String) : String :=
  if isAbsolute p then normAbs p else normAbs (pyJoin cwd p)

/-- run_cryoatom.py, map path resolution: an absolute raw path is resolved
directly and the base directory is not consulted; a relative raw path is
joined with the project directory first. -/
def resolveMapPath (cwd projectDir raw : String) : String :=
  if isAbsolute raw then pyResolve cwd raw
  else pyResolve cwd (pyJoin projectDir raw)

/-- run_cryoatom.py lines 211-213: the caller of the path resolution checks
existence separately and exits fatally with code 1 when the file is absent. -/
def mapStage (fs : String → Bool) (cwd projectDir raw : String) : Except Nat String :=
  let p := resolveMapPath cwd projectDir raw
  if fs p then .ok p else .error 1

/- ===================== choose_map_field ===================== -/

inductive ChooseFieldErr where
  | fieldNotFound (explicit : String) (keys : List String)
  | noPathFieldFound (keys : List String)
deriving DecidableEq

instance : DecidableEq (Except ChooseFieldErr String)
  | .ok a, .ok b =>
    if h : a = b then .isTrue (congrArg Except.ok h)
    else .isFalse (fun hc => h (Except.ok.inj hc))
  | .ok _, .error _ => .isFalse (fun hc => Except.noConfusion hc)
  | .error _, .ok _ => .isFalse (fun hc => Except.noConfusion hc)
  | .error a, .error b =>
    if h : a = b then .isTrue (congrArg Except.error h)
    else .isFalse (fun hc => h (Except.error.inj hc))

/-- The fixed preference list of run_cryoatom.py, lines 121-126. -/
def preferredMapFields : List String :=
  [("map_sharp/path"), ("map/path"), ("map_half_A/path"), ("map_half_B/path")]

/-- Suffix test used on the keys, structural so that it reduces. -/
def hasPathSuffix (k : String) : Bool :=
  List.isSuffixOf ("/path").data k.data

/-- run_cryoatom.py, choose_map_field: explicit field must be present, else a
fatal error listing the keys; otherwise the first present preferred field
wins, otherwise the first key with the path suffix, otherwise a fatal error. -/
def choose_map_field (keys : List String) (explicit : Option String) :
    Except ChooseFieldErr String :=
  match explicit with
  | some e =>
    if e ∈ keys then .ok e else .error (.fieldNotFound e keys)
  | none =>
    match preferredMapFields.find? (fun k => keys.contains k) with
    | some k => .ok k
    | none =>
      match keys.find? (fun k => hasPathSuffix k) with
      | some k => .ok k
      | none => .error (.noPathFieldFound keys)

/- ===================== pick_free_gpu ===================== -/

/-- One well-formed telemetry line: index, memory used, memory total,
utilization percent. Memory figures are modelled as rationals. -/
structure GpuEntry where
  idx : Int
  memUsed : ℚ
  memTotal : ℚ
  util : ℚ
deriving DecidableEq

/-- Selection score of run_cryoatom_auto.py line 114-115. -/
def score (e : GpuEntry) : ℚ × ℚ :=
  (e.memUsed / max e.memTotal 1, e.util)

/-- Lexicographic strict comparison of score tuples, the tuple comparison of
the source language. -/
def scoreLt (a b : ℚ × ℚ) : Prop :=
  a.1 < b.1 ∨ (a.1 = b.1 ∧ a.2 < b.2)

instance scoreLtDec (a b : ℚ × ℚ) : Decidable (scoreLt a b) :=
  inferInstanceAs (Decidable (a.1 < b.1 ∨ (a.1 = b.1 ∧ a.2 < b.2)))

/-- Allow-list filter from CUDA_VISIBLE_DEVICES: with no list everything
passes, otherwise only listed indices pass. -/
def passesAllow (allowed : Option (List Int)) (i : Int) : Bool :=
  match allowed with
  | none => true
  | some l => l.contains i

/-- One iteration of the selection loop of pick_free_gpu: malformed lines and
filtered indices are skipped, the first candidate installs itself, later
candidates replace the best one only on strict improvement. -/
def pickStep (allowed : Option (List Int)) (st : Int × Option (ℚ × ℚ))
    (line : Option GpuEntry) : Int × Option (ℚ × ℚ) :=
  match line with
  | none => st
  | some e =>
    if passesAllow allowed e.idx then
      match st.2 with
      | none => (e.idx, some (score e))
      | some best =>
        if scoreLt (score e) best then (e.idx, some (score e)) else st
    else st

/-- run_cryoatom_auto.py pick_free_gpu. The telemetry argument is none when
the telemetry call itself fails, some lines otherwise; each line is none when
it is malformed (too few fields or unparsable numbers). The function is total:
it never has a failure channel, it falls back to index 0. -/
def pick_free_gpu (telemetry : Option (List (Option GpuEntry)))
    (allowed : Option (List Int)) : Int :=
  match telemetry with
  | none => 0
  | some lines =>
    let r := lines.foldl (pickStep allowed) (0, none)
    match r.2 with
    | none => 0
    | some _ => r.1

/-- The candidates of a telemetry listing: well-formed lines surviving the
allow-list filter, in listing order. -/
def candidatesOf (lines : List (Option GpuEntry)) (allowed : Option (List Int)) :
    List GpuEntry :=
  (lines.filterMap id).filter (fun e => passesAllow allowed e.idx)

/-- Selection loop restricted to candidates, with the best pair always set. -/
def minStep (st : Int × Option (ℚ × ℚ)) (e : GpuEntry) : Int × Option (ℚ × ℚ) :=
  match st.2 with
  | none => (e.idx, some (score e))
  | some best =>
    if scoreLt (score e) best then (e.idx, some (score e)) else st

/-- Selection loop once a best candidate is installed. -/
def loop (i : Int) (s : ℚ × ℚ) (l : List GpuEntry) : Int × (ℚ × ℚ) :=
  l.foldl (fun p e => if scoreLt (score e) p.2 then (e.idx, score e) else p) (i, s)

/- ===================== working directory and layout ===================== -/

/-- run_cryoatom.py lines 218-221. -/
def workDirRun (projectDir puid juid : String) (outDirArg : Option String) : String :=
  match outDirArg with
  | some d => d
  | none => pyJoin projectDir (("cryoatom_") ++ puid ++ ("_") ++ juid)

/-- run_cryoatom_auto.py lines 247-251, recomputed independently. -/
def workDirAuto (projectDir puid juid : String) (outDirArg : Option String) : String :=
  match outDirArg with
  | some d => d
  | none => pyJoin projectDir (("cryoatom_") ++ puid ++ ("_") ++ juid)

/-- cryoatom_external_job.py lines 258-262, recomputed independently. -/
def workDirExt (projectDir puid juid : String) (outDirArg : Option String) : String :=
  match outDirArg with
  | some d => d
  | none => pyJoin projectDir (("cryoatom_") ++ puid ++ ("_") ++ juid)

def outCifRun (workDir : String) : String :=
  pyJoin (pyJoin workDir ("out")) ("out.cif")

def outCifAuto (workDir : String) : String :=
  pyJoin (pyJoin workDir ("out")) ("out.cif")

def outCifExt (workDir : String) : String :=
  pyJoin (pyJoin workDir ("out")) ("out.cif")

/-- The workspace layout of run_cryoatom.py steps 6, 7 and 10. -/
structure Layout where
  root : String
  inputFasta : String
  outputDir : String
  resultCif : String
deriving DecidableEq

def layoutRun (projectDir puid juid : String) (outDirArg : Option String) : Layout :=
  let root := workDirRun projectDir puid juid outDirArg
  { root := root
    inputFasta := pyJoin root ("input.fasta")
    outputDir := pyJoin root ("out")
    resultCif := pyJoin (pyJoin root ("out")) ("out.cif") }

/-- Map input actually handed to the tool: the staged copy path unless the
no-copy flag is set, in which case the resolved original path is used. -/
def mapInRun (root mapPath : String) (noCopyMap : Bool) : String :=
  if noCopyMap then mapPath else pyJoin root ("input_map.mrc")

/- ===================== events and world records ===================== -/

/-- Every mutating step of the pipeline, recorded in order of occurrence. -/
inductive Event where
  | mkdirWorkDir (path : String)
  | copyFasta (src dst : String)
  | copyMap (src dst : String)
  | mkdirOutDir (path : String)
  | runTool (cmd : List String)
  | mkdirTargetDir (path : String)
  | publishCopy (src dst : String)
  | jobLogAppend (gpu : Int) (path : String)
  | warnLogFailed
  | mountLog (path : String)
  | warnNoArtifact (destCandidate rawCandidate : String)
deriving DecidableEq

/-- The steps of the publish stage of run_cryoatom_auto.py. -/
def Event.isPublishStep : Event → Bool
  | .mkdirTargetDir _ => true
  | .publishCopy _ _ => true
  | _ => false

/-- One row of the loaded output dataset: an ordered field map. -/
structure Row where
  fields : List (String × String)
deriving DecidableEq

def Row.keys (r : Row) : List String := r.fields.map Prod.fst

def Row.getField (r : Row) (k : String) : String :=
  ((r.fields.find? (fun p => p.fst = k)).map Prod.snd).getD ("")

/-- World seen by one invocation of run_cryoatom.py: success flags of the
external collaborators, the loaded dataset, the command line arguments and
the relevant filesystem facts. -/
structure RunWorld where
  envOk : Bool
  connectOk : Bool
  projectFound : Bool
  jobFound : Bool
  loadOutputOk : Bool
  rows : List Row
  rowIndex : Int
  mapFieldArg : Option String
  projectDir : String
  puid : String
  juid : String
  outDirArg : Option String
  fastaArg : String
  fastaExists : Bool
  mapFileExists : String → Bool
  cwd : String
  noCopyMap : Bool
  gpuArg : Int
  toolExitCode : Nat

/-- The external tool command of run_cryoatom.py lines 249-260. -/
def cryoatomCmd (fastaIn mapIn outDir : String) (gpu : Int) : List String :=
  [("cryoatom"), ("build"), ("-s"), fastaIn, ("-v"), mapIn, ("-o"), outDir,
   ("-d"), ("cuda:") ++ toString gpu]

/-- run_cryoatom.py from step 5 on, given the selected row: field choice, map
resolution and existence check, workspace staging, tool invocation. The exit
code equals the tool exit code, via check=True and the outer handler. -/
def runStage5on (w : RunWorld) (row : Row) : List Event × Nat :=
  match choose_map_field row.keys w.mapFieldArg with
  | .error _ => ([], 1)
  | .ok fieldName =>
    let mapPath := resolveMapPath w.cwd w.projectDir (row.getField fieldName)
    if w.mapFileExists mapPath = false then ([], 1)
    else
      let workDir := workDirRun w.projectDir w.puid w.juid w.outDirArg
      if w.fastaExists = false then ([Event.mkdirWorkDir workDir], 1)
      else
        let fastaIn := pyJoin workDir ("input.fasta")
        let mapIn := if w.noCopyMap then mapPath else pyJoin workDir ("input_map.mrc")
        let outDir := pyJoin workDir ("out")
        let evs := Event.mkdirWorkDir workDir :: Event.copyFasta w.fastaArg fastaIn ::
          ((if w.noCopyMap then [] else [Event.copyMap mapPath mapIn]) ++
            [Event.mkdirOutDir outDir,
             Event.runTool (cryoatomCmd fastaIn mapIn outDir w.gpuArg)])
        (evs, w.toolExitCode)

/-- run_cryoatom.py main: connection and lookup guards, dataset guards, then
the staged pipeline. Every fatal guard exits with code 1 before any mutation,
and the row is read only under the bounds guard. -/
def runCryoatomMain (w : RunWorld) : List Event × Nat :=
  if w.envOk = false then ([], 1)
  else if w.connectOk = false then ([], 1)
  else if w.projectFound = false then ([], 1)
  else if w.jobFound = false then ([], 1)
  else if w.loadOutputOk = false then ([], 1)
  else if w.rows.length = 0 then ([], 1)
  else if hr : 0 ≤ w.rowIndex ∧ w.rowIndex < (w.rows.length : Int) then
    runStage5on w (w.rows.get ⟨w.rowIndex.toNat, by omega⟩)
  else ([], 1)

/-- Total accessor for the selected row, used only to state hypotheses. -/
def rowAt (w : RunWorld) : Row :=
  w.rows.getD w.rowIndex.toNat ⟨[]⟩

def exceptIsOk : Except ChooseFieldErr String → Bool
  | .ok _ => true
  | .error _ => false

def exceptGetD : Except ChooseFieldErr String → String → String
  | .ok v, _ => v
  | .error _, d => d

/-- All guards of run_cryoatom.py up to and including the tool invocation
pass: the run reaches the external tool. -/
def reachesTool (w : RunWorld) : Bool :=
  w.envOk && w.connectOk && w.projectFound && w.jobFound && w.loadOutputOk &&
  decide (0 ≤ w.rowIndex) && decide (w.rowIndex < (w.rows.length : Int)) &&
  exceptIsOk (choose_map_field (rowAt w).keys w.mapFieldArg) &&
  w.mapFileExists (resolveMapPath w.cwd w.projectDir
    ((rowAt w).getField
      (exceptGetD (choose_map_field (rowAt w).keys w.mapFieldArg) ("")))) &&
  w.fastaExists

/-- World of one run_cryoatom_auto.py invocation on top of the inner run. -/
structure AutoWorld where
  rw : RunWorld
  autoGpuArg : Option Int
  telemetry : Option (List (Option GpuEntry))
  allowed : Option (List Int)
  scriptExists : Bool
  connectOk : Bool
  projectFound : Bool
  jobFound : Bool
  jobDir : String
  outCifExistsAfter : Bool
  copyOk : Bool
  logOk : Bool

/-- GPU finally used by run_cryoatom_auto.py: the explicit argument when
given, otherwise the automatic selection. -/
def autoGpu (w : AutoWorld) : Int :=
  match w.autoGpuArg with
  | some g => g
  | none => pick_free_gpu w.telemetry w.allowed

/-- The run world actually seen by the child process: the GPU argument passed
down is the one selected by the wrapper. -/
def autoSubWorld (w : AutoWorld) : RunWorld :=
  { w.rw with gpuArg := autoGpu w }

def autoWorkDir (w : AutoWorld) : String :=
  workDirAuto w.rw.projectDir w.rw.puid w.rw.juid w.rw.outDirArg

def autoOutCif (w : AutoWorld) : String :=
  outCifAuto (autoWorkDir w)

def autoTargetDir (w : AutoWorld) : String :=
  pyJoin w.jobDir ("cryoatom")

def autoDestFile (w : AutoWorld) : String :=
  pyJoin (autoTargetDir w) (w.rw.puid ++ ("_") ++ w.rw.juid ++ ("_cryoatom.cif"))

/-- run_cryoatom_auto.py main: GPU selection, child run with verbatim exit
propagation, work-directory re-inference, existence check of out.cif (fatal
when absent), publish copy (fatal on failure) and best-effort job log. -/
def autoMain (w : AutoWorld) : List Event × Nat :=
  if w.scriptExists = false then ([], 1)
  else
    let sub := runCryoatomMain (autoSubWorld w)
    if sub.2 ≠ 0 then (sub.1, sub.2)
    else if w.connectOk = false then (sub.1, 1)
    else if w.projectFound = false then (sub.1, 1)
    else if w.jobFound = false then (sub.1, 1)
    else if w.outCifExistsAfter = false then (sub.1, 1)
    else if w.copyOk = false then (sub.1 ++ [Event.mkdirTargetDir (autoTargetDir w)], 1)
    else
      let evs := sub.1 ++
        [Event.mkdirTargetDir (autoTargetDir w),
         Event.publishCopy (autoOutCif w) (autoDestFile w)]
      if w.logOk then (evs ++ [Event.jobLogAppend (autoGpu w) (autoDestFile w)], 0)
      else (evs ++ [Event.warnLogFailed], 0)

/-- Source kind of the resolved artifact. -/
inductive SourceKind where
  | published
  | raw
  | notFound
deriving DecidableEq

/-- cryoatom_external_job.py lines 272-284: the previously published copy is
tried first, the raw working-directory output second; otherwise nothing. -/
def resolveArtifact (destExists outCifExists : Bool) (destFile outCif : String) :
    SourceKind × Option String :=
  if destExists then (SourceKind.published, some destFile)
  else if outCifExists then (SourceKind.raw, some outCif)
  else (SourceKind.notFound, none)

/-- World of one cryoatom_external_job.py invocation on top of the wrapped
auto run; the two existence flags are the filesystem facts at resolution
time. -/
structure ExtWorld where
  aw : AutoWorld
  connectOk : Bool
  projectFound : Bool
  srcJobFound : Bool
  createJobOk : Bool
  autoScriptExists : Bool
  destExistsAtResolve : Bool
  outCifExistsAtResolve : Bool

def extWorkDir (w : ExtWorld) : String :=
  workDirExt w.aw.rw.projectDir w.aw.rw.puid w.aw.rw.juid w.aw.rw.outDirArg

def extOutCif (w : ExtWorld) : String :=
  outCifExt (extWorkDir w)

def extDestFile (w : ExtWorld) : String :=
  pyJoin (pyJoin w.aw.jobDir ("cryoatom"))
    (w.aw.rw.puid ++ ("_") ++ w.aw.rw.juid ++ ("_cryoatom.cif"))

/-- cryoatom_external_job.py main: guards, the wrapped auto run (any failure
of which is re-raised and exits with code 1), then artifact resolution; a
missing artifact is a logged warning on the successful path. -/
def extMain (w : ExtWorld) : List Event × Nat :=
  if w.connectOk = false then ([], 1)
  else if w.projectFound = false then ([], 1)
  else if w.srcJobFound = false then ([], 1)
  else if w.createJobOk = false then ([], 1)
  else if w.autoScriptExists = false then ([], 1)
  else
    let sub := autoMain w.aw
    if sub.2 ≠ 0 then (sub.1, 1)
    else
      match resolveArtifact w.destExistsAtResolve w.outCifExistsAtResolve
        (extDestFile w) (extOutCif w) with
      | (_, some p) => (sub.1 ++ [Event.mountLog p], 0)
      | (_, none) =>
        (sub.1 ++ [Event.warnNoArtifact (extDestFile w) (extOutCif w)], 0)

/- ===================== concrete worlds for witnesses ===================== -/

def row0 : Row := ⟨[(("map/path"), ("v.mrc"))]⟩

/-- A run world in which every stage succeeds and the tool exits 0. -/
def wRunBase : RunWorld where
  envOk := true
  connectOk := true
  projectFound := true
  jobFound := true
  loadOutputOk := true
  rows := [row0]
  rowIndex := 0
  mapFieldArg := some ("map/path")
  projectDir := ("/p")
  puid := ("P1")
  juid := ("J1")
  outDirArg := none
  fastaArg := ("/f.fasta")
  fastaExists := true
  mapFileExists := fun _ => true
  cwd := ("/c")
  noCopyMap := false
  gpuArg := 0
  toolExitCode := 0

def wRun137 : RunWorld := { wRunBase with toolExitCode := 137 }

def wRunOob : RunWorld := { wRunBase with rowIndex := 5 }

/-- An auto world on top of a fully successful inner run. -/
def wAutoBase : AutoWorld where
  rw := wRunBase
  autoGpuArg := some 0
  telemetry := none
  allowed := none
  scriptExists := true
  connectOk := true
  projectFound := true
  jobFound := true
  jobDir := ("/p/J1")
  outCifExistsAfter := true
  copyOk := true
  logOk := true

def wAuto137 : AutoWorld := { wAutoBase with rw := wRun137 }

def wAutoNoCif : AutoWorld := { wAutoBase with outCifExistsAfter := false }

def wAutoLogFail : AutoWorld := { wAutoBase with logOk := false }

def wAutoCopyFail : AutoWorld := { wAutoBase with copyOk := false }

/-- An external-job world on top of a fully successful auto run. -/
def wExtBase : ExtWorld where
  aw := wAutoBase
  connectOk := true
  projectFound := true
  srcJobFound := true
  createJobOk := true
  autoScriptExists := true
  destExistsAtResolve := true
  outCifExistsAtResolve := true

/-- The tool run succeeds but out.cif is never produced, so neither candidate
artifact path ever exists. -/
def wExtNF : ExtWorld :=
  { wExtBase with
    aw := wAutoNoCif
    destExistsAtResolve := false
    outCifExistsAtResolve := false }

/-- The auto run succeeds, but both candidate paths are gone by the time the
external job resolves the artifact. -/
def wExtRace : ExtWorld :=
  { wExtBase with
    destExistsAtResolve := false
    outCifExistsAtResolve := false }

/-- Telemetry listing for the selection witness: index 1 has the strictly
smallest memory ratio; one malformed line is skipped. -/
def telemetry1 : List (Option GpuEntry) :=
  [some ⟨0, 5, 1, 20⟩, some ⟨1, 2, 1, 30⟩, none]

/- ===================== order lemmas for the selection score ===================== -/

theorem scoreLt_irrefl (a : ℚ × ℚ) : ¬ scoreLt a a := by
  unfold scoreLt
  rintro (h | ⟨h1, h2⟩)
  · exact lt_irrefl _ h
  · exact lt_irrefl _ h2

theorem scoreLt_asymm {a b : ℚ × ℚ} (h : scoreLt a b) : ¬ scoreLt b a := by
  unfold scoreLt at *
  rcases h with h | ⟨h1, h2⟩ <;> rintro (g | ⟨g1, g2⟩) <;> linarith

theorem scoreLt_trans {a b c : ℚ × ℚ} (h : scoreLt a b) (g : scoreLt b c) :
    scoreLt a c := by
  unfold scoreLt at *
  rcases h with h | ⟨h1, h2⟩ <;> rcases g with g | ⟨g1, g2⟩
  · left; linarith
  · left; linarith
  · left; linarith
  · right
    constructor
    · linarith
    · linarith

theorem scoreLt_of_lt_of_not_lt {a b c : ℚ × ℚ} (h : scoreLt a b)
    (g : ¬ scoreLt c b) : scoreLt a c := by
  unfold scoreLt at *
  push_neg at g
  obtain ⟨g1, g2⟩ := g
  rcases h with h | ⟨h1, h2⟩
  · left; linarith
  · rcases lt_or_eq_of_le g1 with hg | hg
    · left; linarith
    · right
      constructor
      · linarith
      · have := g2 hg.symm
        linarith

/- ===================== selection loop lemmas ===================== -/

theorem pickFold_eq (allowed : Option (List Int)) :
    ∀ (lines : List (Option GpuEntry)) (st : Int × Option (ℚ × ℚ)),
    lines.foldl (pickStep allowed) st = (candidatesOf lines allowed).foldl minStep st := by
  intro lines
  induction lines with
  | nil => intro st; rfl
  | cons a t ih =>
    intro st
    cases a with
    | none =>
      have h1 : pickStep allowed st none = st := rfl
      have h2 : candidatesOf (none :: t) allowed = candidatesOf t allowed := by
        simp [candidatesOf]
      rw [List.foldl_cons, h1, h2, ih st]
    | some e =>
      by_cases hp : passesAllow allowed e.idx
      · have h1 : pickStep allowed st (some e) = minStep st e := by
          simp [pickStep, hp, minStep]
        have h2 : candidatesOf (some e :: t) allowed = e :: candidatesOf t allowed := by
          simp [candidatesOf, List.filter_cons, hp]
        rw [List.foldl_cons, h1, h2, List.foldl_cons, ih (minStep st e)]
      · have h1 : pickStep allowed st (some e) = st := by
          simp [pickStep, hp]
        have h2 : candidatesOf (some e :: t) allowed = candidatesOf t allowed := by
          simp [candidatesOf, List.filter_cons, hp]
        rw [List.foldl_cons, h1, h2, ih st]

theorem minFold_some (l : List GpuEntry) : ∀ (i : Int) (s : ℚ × ℚ),
    l.foldl minStep (i, some s) = ((loop i s l).1, some (loop i s l).2) := by
  induction l with
  | nil => intro i s; rfl
  | cons e t ih =>
    intro i s
    by_cases h : scoreLt (score e) s
    · have h1 : minStep (i, some s) e = (e.idx, some (score e)) := by
        simp [minStep, h]
      have h2 : loop i s (e :: t) = loop e.idx (score e) t := by
        simp [loop, List.foldl_cons, h]
      rw [List.foldl_cons, h1, ih, h2]
    · have h1 : minStep (i, some s) e = (i, some s) := by
        simp [minStep, h]
      have h2 : loop i s (e :: t) = loop i s t := by
        simp [loop, List.foldl_cons, h]
      rw [List.foldl_cons, h1, ih, h2]

theorem loop_spec : ∀ (l : List GpuEntry) (i : Int) (s : ℚ × ℚ),
    (loop i s l = (i, s) ∧ ∀ x ∈ l, ¬ scoreLt (score x) s)
    ∨ (∃ pre e post, l = pre ++ e :: post
        ∧ loop i s l = (e.idx, score e)
        ∧ scoreLt (score e) s
        ∧ (∀ x ∈ pre, scoreLt (score e) (score x))
        ∧ (∀ x ∈ post, ¬ scoreLt (score x) (score e))) := by
  intro l
  induction l with
  | nil =>
    intro i s
    left
    exact ⟨rfl, by simp⟩
  | cons a t ih =>
    intro i s
    by_cases h : scoreLt (score a) s
    · have hstep : loop i s (a :: t) = loop a.idx (score a) t := by
        simp [loop, List.foldl_cons, h]
      rcases ih a.idx (score a) with ⟨heq, hall⟩ | ⟨pre, e, post, hl, heq, hlt, hpre, hpost⟩
      · right
        refine ⟨[], a, t, by simp, ?_, h, by simp, hall⟩
        rw [hstep, heq]
      · right
        refine ⟨a :: pre, e, post, by simp [hl], ?_, scoreLt_trans hlt h, ?_, hpost⟩
        · rw [hstep, heq]
        · intro x hx
          rcases List.mem_cons.mp hx with rfl | hx
          · exact hlt
          · exact hpre x hx
    · have hstep : loop i s (a :: t) = loop i s t := by
        simp [loop, List.foldl_cons, h]
      rcases ih i s with ⟨heq, hall⟩ | ⟨pre, e, post, hl, heq, hlt, hpre, hpost⟩
      · left
        refine ⟨by rw [hstep, heq], ?_⟩
        intro x hx
        rcases List.mem_cons.mp hx with rfl | hx
        · exact h
        · exact hall x hx
      · right
        refine ⟨a :: pre, e, post, by simp [hl], by rw [hstep, heq], hlt, ?_, hpost⟩
        intro x hx
        rcases List.mem_cons.mp hx with rfl | hx
        · exact scoreLt_of_lt_of_not_lt hlt h
        · exact hpre x hx

/- ===================== claim theorems ===================== -/

/-- C1: whenever the telemetry listing has at least one well-formed candidate
line surviving the allow-list filter, the selection returns the index of a
candidate that minimizes the pair (memoryUsed / max(memoryTotal, 1),
utilizationPercent) under lexicographic order, and every candidate listed
before it has a strictly larger score, so on full ties the first-listed
candidate wins and on tied memory ratios the lower utilization wins. -/
theorem c1_gpu_selection_lex_min (lines : List (Option GpuEntry))
    (allowed : Option (List Int)) (hne : candidatesOf lines allowed ≠ []) :
    ∃ pre e post, candidatesOf lines allowed = pre ++ e :: post
      ∧ pick_free_gpu (some lines) allowed = e.idx
      ∧ (∀ x ∈ candidatesOf lines allowed, ¬ scoreLt (score x) (score e))
      ∧ (∀ x ∈ pre, scoreLt (score e) (score x)) := by
  obtain ⟨c0, cs, hc⟩ : ∃ c0 cs, candidatesOf lines allowed = c0 :: cs := by
    cases hcand : candidatesOf lines allowed with
    | nil => exact absurd hcand hne
    | cons c0 cs => exact ⟨c0, cs, rfl⟩
  have hr : lines.foldl (pickStep allowed) (0, none) =
      ((loop c0.idx (score c0) cs).1, some (loop c0.idx (score c0) cs).2) := by
    rw [pickFold_eq allowed lines (0, none), hc, List.foldl_cons]
    exact minFold_some cs c0.idx (score c0)
  have hpick : pick_free_gpu (some lines) allowed = (loop c0.idx (score c0) cs).1 := by
    simp only [pick_free_gpu, hr]
  rcases loop_spec cs c0.idx (score c0) with ⟨heq, hall⟩ |
      ⟨pre, e, post, hl, heq, hlt, hpre, hpost⟩
  · refine ⟨[], c0, cs, by simp [hc], ?_, ?_, by simp⟩
    · rw [hpick, heq]
    · intro x hx
      rw [hc] at hx
      rcases List.mem_cons.mp hx with rfl | hx
      · exact scoreLt_irrefl _
      · exact hall x hx
  · refine ⟨c0 :: pre, e, post, by simp [hc, hl], ?_, ?_, ?_⟩
    · rw [hpick, heq]
    · intro x hx
      rw [hc, hl] at hx
      rcases List.mem_cons.mp hx with rfl | hx
      · exact scoreLt_asymm hlt
      · rcases List.mem_append.mp hx with hx | hx
        · exact scoreLt_asymm (hpre x hx)
        · rcases List.mem_cons.mp hx with rfl | hx
          · exact scoreLt_irrefl _
          · exact hpost x hx
    · intro x hx
      rcases List.mem_cons.mp hx with rfl | hx
      · exact hlt
      · exact hpre x hx

/- helper lemmas on find? -/

theorem find?_first {α : Type} (p : α → Bool) :
    ∀ (pre : List α) (k : α) (post : List α), p k = true →
    (∀ x ∈ pre, p x = false) → (pre ++ k :: post).find? p = some k := by
  intro pre
  induction pre with
  | nil =>
    intro k post hk _
    exact List.find?_cons_of_pos _ hk
  | cons a t ih =>
    intro k post hk hall
    have ha : p a = false := hall a (by simp)
    rw [List.cons_append, List.find?_cons_of_neg _ (by simp [ha])]
    exact ih k post hk (fun x hx => hall x (by simp [hx]))

theorem find?_all_neg {α : Type} (p : α → Bool) :
    ∀ (l : List α), (∀ x ∈ l, p x = false) → l.find? p = none := by
  intro l
  induction l with
  | nil => intro _; rfl
  | cons a t ih =>
    intro h
    rw [List.find?_cons_of_neg _ (by simp [h a (by simp)])]
    exact ih (fun x hx => h x (by simp [hx]))

theorem contains_true_of_mem {k : String} {keys : List String} (h : k ∈ keys) :
    keys.contains k = true :=
  List.elem_iff.mpr h

theorem contains_false_of_not_mem {k : String} {keys : List String} (h : k ∉ keys) :
    keys.contains k = false := by
  cases hc : keys.contains k with
  | false => rfl
  | true => exact absurd (List.elem_iff.mp hc) h

/-- Witness for C1 at a concrete telemetry listing. -/
theorem c1_witness :
    candidatesOf telemetry1 none ≠ [] ∧
    (∃ pre e post, candidatesOf telemetry1 none = pre ++ e :: post
      ∧ pick_free_gpu (some telemetry1) none = e.idx
      ∧ (∀ x ∈ candidatesOf telemetry1 none, ¬ scoreLt (score x) (score e))
      ∧ (∀ x ∈ pre, scoreLt (score e) (score x))) :=
  ⟨by decide, c1_gpu_selection_lex_min telemetry1 none (by decide)⟩

/-- C5: when the telemetry query itself fails, and likewise when no candidate
line survives parsing and the allow-list filter, the selection returns index 0;
the embedded selection function is total (it has no failure channel), so the
fallback is the deterministic result and not an error. -/
theorem c5_fallback_zero :
    (∀ allowed, pick_free_gpu none allowed = 0)
    ∧ (∀ lines allowed, candidatesOf lines allowed = [] →
        pick_free_gpu (some lines) allowed = 0) := by
  constructor
  · intro allowed
    rfl
  · intro lines allowed h
    have hr : lines.foldl (pickStep allowed) (0, none) = ((0 : Int), none) := by
      rw [pickFold_eq allowed lines (0, none), h]
      rfl
    simp [pick_free_gpu, hr]

/-- Witness for C5: absent telemetry tool, and an allow-list that excludes
the only reporting accelerator. -/
theorem c5_witness :
    pick_free_gpu none (some [0]) = 0
    ∧ candidatesOf [some ⟨0, 5, 1, 20⟩, none] (some [7]) = []
    ∧ pick_free_gpu (some [some ⟨0, 5, 1, 20⟩, none]) (some [7]) = 0 :=
  ⟨c5_fallback_zero.1 (some [0]), by decide,
   c5_fallback_zero.2 [some ⟨0, 5, 1, 20⟩, none] (some [7]) (by decide)⟩

/-- C4: with an explicit field name, it is returned exactly when present and
otherwise the choice fails fatally carrying the available keys; with no
explicit field the first present key of the fixed preference list wins, then
the first key in record order ending in the path suffix, then a fatal error;
in particular the preference order beats the generic suffix match. -/
theorem c4_choose_field_spec :
    (∀ keys e, e ∈ keys → choose_map_field keys (some e) = .ok e)
    ∧ (∀ keys e, e ∉ keys →
        choose_map_field keys (some e) = .error (.fieldNotFound e keys))
    ∧ (∀ keys pre k post, preferredMapFields = pre ++ k :: post → k ∈ keys →
        (∀ p ∈ pre, p ∉ keys) → choose_map_field keys none = .ok k)
    ∧ (∀ keys, (∀ p ∈ preferredMapFields, p ∉ keys) →
        ∀ pre k post, keys = pre ++ k :: post → hasPathSuffix k = true →
        (∀ p ∈ pre, hasPathSuffix p = false) → choose_map_field keys none = .ok k)
    ∧ (∀ keys, (∀ p ∈ preferredMapFields, p ∉ keys) →
        (∀ k ∈ keys, hasPathSuffix k = false) →
        choose_map_field keys none = .error (.noPathFieldFound keys))
    ∧ choose_map_field [("map_sharp/path"), ("other/path")] none
        = .ok ("map_sharp/path") := by
  refine ⟨?_, ?_, ?_, ?_, ?_, by decide⟩
  · intro keys e he
    simp [choose_map_field, he]
  · intro keys e he
    simp [choose_map_field, he]
  · intro keys pre k post hdec hk hpre
    have hfind : preferredMapFields.find? (fun x => keys.contains x) = some k := by
      rw [hdec]
      exact find?_first _ pre k post (contains_true_of_mem hk)
        (fun x hx => contains_false_of_not_mem (hpre x hx))
    unfold choose_map_field
    rw [hfind]
  · intro keys hnp pre k post hdec hk hpre
    have hfind : preferredMapFields.find? (fun x => keys.contains x) = none :=
      find?_all_neg _ _ (fun x hx => contains_false_of_not_mem (hnp x hx))
    have hfind2 : keys.find? (fun x => hasPathSuffix x) = some k := by
      rw [hdec]
      exact find?_first _ pre k post hk hpre
    unfold choose_map_field
    rw [hfind, hfind2]
  · intro keys hnp hns
    have hfind : preferredMapFields.find? (fun x => keys.contains x) = none :=
      find?_all_neg _ _ (fun x hx => contains_false_of_not_mem (hnp x hx))
    have hfind2 : keys.find? (fun x => hasPathSuffix x) = none :=
      find?_all_neg _ _ hns
    unfold choose_map_field
    rw [hfind, hfind2]

/-- Witness for C4: one concrete input per clause. -/
theorem c4_witness :
    choose_map_field [("a/path")] (some ("a/path")) = .ok ("a/path")
    ∧ choose_map_field [("k")] (some ("z")) = .error (.fieldNotFound ("z") [("k")])
    ∧ choose_map_field [("other/path"), ("map/path")] none = .ok ("map/path")
    ∧ choose_map_field [("x"), ("a/path")] none = .ok ("a/path")
    ∧ choose_map_field [("x")] none = .error (.noPathFieldFound [("x")])
    ∧ choose_map_field [("map_sharp/path"), ("other/path")] none
        = .ok ("map_sharp/path") :=
  ⟨c4_choose_field_spec.1 _ _ (by decide),
   c4_choose_field_spec.2.1 _ _ (by decide),
   c4_choose_field_spec.2.2.1 [("other/path"), ("map/path")]
     [("map_sharp/path")] ("map/path")
     [("map_half_A/path"), ("map_half_B/path")] (by decide) (by decide) (by decide),
   c4_choose_field_spec.2.2.2.1 [("x"), ("a/path")] (by decide)
     [("x")] ("a/path") [] (by decide) (by decide) (by decide),
   c4_choose_field_spec.2.2.2.2.1 [("x")] (by decide) (by decide),
   c4_choose_field_spec.2.2.2.2.2⟩

/-- C6: the working-directory root and the out cif path recomputed
independently by the two downstream scripts agree exactly with the paths
computed by the primary script on every input; the override directory is used
verbatim when supplied, otherwise the fixed naming scheme applies. -/
theorem c6_workdir_agreement (projectDir puid juid : String)
    (outDirArg : Option String) (d : String) :
    workDirAuto projectDir puid juid outDirArg = workDirRun projectDir puid juid outDirArg
    ∧ workDirExt projectDir puid juid outDirArg = workDirRun projectDir puid juid outDirArg
    ∧ outCifAuto (workDirAuto projectDir puid juid outDirArg)
        = outCifRun (workDirRun projectDir puid juid outDirArg)
    ∧ outCifExt (workDirExt projectDir puid juid outDirArg)
        = outCifRun (workDirRun projectDir puid juid outDirArg)
    ∧ workDirRun projectDir puid juid (some d) = d
    ∧ workDirRun projectDir puid juid none
        = pyJoin projectDir (("cryoatom_") ++ puid ++ ("_") ++ juid) :=
  ⟨rfl, rfl, rfl, rfl, rfl, rfl⟩

/-- C7: the workspace layout is a pure function of its four inputs, computing
it twice gives identical paths, and the subpaths are exactly the fasta copy,
the out directory and the canonical result file under the root, with the
staged map path used only when the map is copied and the original resolved
path used otherwise. -/
theorem c7_layout_pure (projectDir puid juid : String) (outDirArg : Option String)
    (mapPath : String) :
    layoutRun projectDir puid juid outDirArg = layoutRun projectDir puid juid outDirArg
    ∧ (layoutRun projectDir puid juid outDirArg).root
        = workDirRun projectDir puid juid outDirArg
    ∧ (layoutRun projectDir puid juid outDirArg).inputFasta
        = pyJoin (workDirRun projectDir puid juid outDirArg) ("input.fasta")
    ∧ (layoutRun projectDir puid juid outDirArg).outputDir
        = pyJoin (workDirRun projectDir puid juid outDirArg) ("out")
    ∧ (layoutRun projectDir puid juid outDirArg).resultCif
        = pyJoin (pyJoin (workDirRun projectDir puid juid outDirArg) ("out")) ("out.cif")
    ∧ mapInRun (workDirRun projectDir puid juid outDirArg) mapPath false
        = pyJoin (workDirRun projectDir puid juid outDirArg) ("input_map.mrc")
    ∧ mapInRun (workDirRun projectDir puid juid outDirArg) mapPath true = mapPath :=
  ⟨rfl, rfl, rfl, rfl, rfl, rfl, rfl⟩

/-- C8: resolving an already-absolute raw path returns its normalization and
never consults the base directory; resolving the same raw path against the
same base twice gives identical results; the resolution function itself takes
no filesystem argument, and the calling stage returns the resolved path when
it exists and fails fatally with exit code 1 when it is absent. -/
theorem c8_resolve_idempotent :
    (∀ cwd d d2 raw, isAbsolute raw = true →
      resolveMapPath cwd d raw = normAbs raw
      ∧ resolveMapPath cwd d raw = resolveMapPath cwd d2 raw)
    ∧ (∀ cwd d raw, resolveMapPath cwd d raw = resolveMapPath cwd d raw)
    ∧ (∀ fs cwd d raw,
        (fs (resolveMapPath cwd d raw) = true →
          mapStage fs cwd d raw = .ok (resolveMapPath cwd d raw))
        ∧ (fs (resolveMapPath cwd d raw) = false →
          mapStage fs cwd d raw = .error 1)) := by
  refine ⟨?_, fun cwd d raw => rfl, ?_⟩
  · intro cwd d d2 raw h
    constructor <;> simp [resolveMapPath, pyResolve, h]
  · intro fs cwd d raw
    constructor <;> intro h <;> simp [mapStage, h]

/-- Witness for C8 at concrete paths. -/
theorem c8_witness :
    isAbsolute ("/a/../b") = true
    ∧ resolveMapPath ("/c") ("/p") ("/a/../b") = normAbs ("/a/../b")
    ∧ resolveMapPath ("/c") ("/p") ("/a/../b") = resolveMapPath ("/c") ("/q") ("/a/../b")
    ∧ normAbs ("/a/../b") = ("/b")
    ∧ mapStage (fun _ => false) ("/c") ("/p") ("r.mrc") = .error 1 :=
  ⟨by decide,
   (c8_resolve_idempotent.1 ("/c") ("/p") ("/q") ("/a/../b") (by decide)).1,
   (c8_resolve_idempotent.1 ("/c") ("/p") ("/q") ("/a/../b") (by decide)).2,
   by decide,
   (c8_resolve_idempotent.2.2 (fun _ => false) ("/c") ("/p") ("r.mrc")).2 rfl⟩

/- helper lemmas on the event traces of the mains -/

theorem runStage5on_no_publish (w : RunWorld) (row : Row) :
    ∀ e ∈ (runStage5on w row).1, e.isPublishStep = false := by
  unfold runStage5on
  cases hch : choose_map_field row.keys w.mapFieldArg with
  | error err => simp
  | ok k =>
    by_cases hm : w.mapFileExists (resolveMapPath w.cwd w.projectDir (row.getField k)) = false
    · simp [hm]
    · by_cases hf : w.fastaExists = false
      · simp [hm, hf, Event.isPublishStep]
      · by_cases hnc : w.noCopyMap
        · simp [hm, hf, hnc, Event.isPublishStep]
        · simp [hm, hf, hnc, Event.isPublishStep]

theorem run_no_publish (w : RunWorld) :
    ∀ e ∈ (runCryoatomMain w).1, e.isPublishStep = false := by
  unfold runCryoatomMain
  by_cases h1 : w.envOk = false
  · simp [h1]
  · by_cases h2 : w.connectOk = false
    · simp [h1, h2]
    · by_cases h3 : w.projectFound = false
      · simp [h1, h2, h3]
      · by_cases h4 : w.jobFound = false
        · simp [h1, h2, h3, h4]
        · by_cases h5 : w.loadOutputOk = false
          · simp [h1, h2, h3, h4, h5]
          · by_cases h6 : w.rows.length = 0
            · simp [h1, h2, h3, h4, h5, h6]
            · by_cases h7 : 0 ≤ w.rowIndex ∧ w.rowIndex < (w.rows.length : Int)
              · simp only [h1, h2, h3, h4, h5, h6, Bool.true_eq_false, if_false]
                rw [dif_pos h7]
                exact runStage5on_no_publish _ _
              · simp [h1, h2, h3, h4, h5, h6, h7]

/-- C10: once the dataset is loaded, an empty dataset and an out-of-range row
index each cause a fatal exit with code 1 before any workspace mutation (the
event trace is empty), and when the index is in range the pipeline continues
exactly with the dataset row read at that index, so the embedded dataset read
is always within bounds. -/
theorem c10_row_guard (w : RunWorld)
    (h1 : w.envOk = true) (h2 : w.connectOk = true) (h3 : w.projectFound = true)
    (h4 : w.jobFound = true) (h5 : w.loadOutputOk = true) :
    (¬ (0 ≤ w.rowIndex ∧ w.rowIndex < (w.rows.length : Int)) →
      runCryoatomMain w = ([], 1))
    ∧ (∀ hle : 0 ≤ w.rowIndex, ∀ hlt : w.rowIndex < (w.rows.length : Int),
      runCryoatomMain w =
        runStage5on w (w.rows.get ⟨w.rowIndex.toNat, by omega⟩)) := by
  constructor
  · intro hng
    by_cases hz : w.rows.length = 0
    · simp [runCryoatomMain, h1, h2, h3, h4, h5, hz]
    · simp [runCryoatomMain, h1, h2, h3, h4, h5, hz, hng]
  · intro hle hlt
    have hz : ¬ (w.rows.length = 0) := by omega
    simp only [runCryoatomMain, h1, h2, h3, h4, h5, hz]
    simp only [Bool.true_eq_false, if_false]
    rw [dif_pos ⟨hle, hlt⟩]

/-- Witness for C10 at a concrete out-of-range index. -/
theorem c10_witness :
    wRunOob.envOk = true
    ∧ ¬ (0 ≤ wRunOob.rowIndex ∧ wRunOob.rowIndex < (wRunOob.rows.length : Int))
    ∧ runCryoatomMain wRunOob = ([], 1) :=
  ⟨rfl, by decide,
   (c10_row_guard wRunOob rfl rfl rfl rfl rfl).1 (by decide)⟩

/-- C3: whenever run_cryoatom.py reaches the external tool, its process exit
code equals the tool exit code verbatim; and whenever the inner run exits
nonzero, the wrapper exits with exactly that code and its whole event trace
contains no publish step, so no publish is attempted before the abort. -/
theorem c3_tool_exit_propagation :
    (∀ w : RunWorld, reachesTool w = true →
      (runCryoatomMain w).2 = w.toolExitCode)
    ∧ (∀ aw : AutoWorld, aw.scriptExists = true →
      (runCryoatomMain (autoSubWorld aw)).2 ≠ 0 →
      autoMain aw = ((runCryoatomMain (autoSubWorld aw)).1,
        (runCryoatomMain (autoSubWorld aw)).2)
      ∧ ∀ e ∈ (autoMain aw).1, e.isPublishStep = false) := by
  constructor
  · intro w h
    simp only [reachesTool, Bool.and_eq_true, decide_eq_true_eq] at h
    obtain ⟨⟨⟨⟨⟨⟨⟨⟨⟨he, hc⟩, hp⟩, hj⟩, hl⟩, hr0⟩, hr1⟩, hok⟩, hmap⟩, hf⟩ := h
    have hz : ¬ (w.rows.length = 0) := by omega
    have hrow : w.rows.get ⟨w.rowIndex.toNat, by omega⟩ = rowAt w := by
      unfold rowAt
      rw [List.getD_eq_getElem?_getD,
        List.getElem?_eq_getElem (by omega : w.rowIndex.toNat < w.rows.length)]
      rfl
    simp only [runCryoatomMain, he, hc, hp, hj, hl, hz]
    simp only [Bool.true_eq_false, if_false]
    rw [dif_pos ⟨hr0, hr1⟩, hrow]
    cases hch : choose_map_field (rowAt w).keys w.mapFieldArg with
    | error err =>
      rw [hch] at hok
      simp [exceptIsOk] at hok
    | ok k =>
      rw [hch] at hmap
      simp only [exceptGetD] at hmap
      unfold runStage5on
      rw [hch]
      simp [hmap, hf]
  · intro aw hs hnz
    have hmain : autoMain aw = ((runCryoatomMain (autoSubWorld aw)).1,
        (runCryoatomMain (autoSubWorld aw)).2) := by
      unfold autoMain
      simp [hs, hnz]
    refine ⟨hmain, ?_⟩
    rw [hmain]
    exact fun e he => run_no_publish (autoSubWorld aw) e he

/-- Witness for C3: tool exit code 137 propagates through both layers. -/
theorem c3_witness :
    reachesTool wRun137 = true
    ∧ (runCryoatomMain wRun137).2 = wRun137.toolExitCode
    ∧ ((autoMain wAuto137 = ((runCryoatomMain (autoSubWorld wAuto137)).1,
          (runCryoatomMain (autoSubWorld wAuto137)).2))
        ∧ ∀ e ∈ (autoMain wAuto137).1, e.isPublishStep = false)
    ∧ (autoMain wAuto137).2 = 137 :=
  ⟨by decide, c3_tool_exit_propagation.1 wRun137 (by decide),
   c3_tool_exit_propagation.2 wAuto137 rfl (by decide),
   by decide⟩

/-- C2 counterexample: a world in which the external tool run succeeds (exit
code 0, so the inner run_cryoatom.py exits 0) but the tool never writes
out/out.cif, hence neither candidate artifact path ever exists; the pipeline
then terminates with exit code 1 at every layer, a fatal error and not a
successful warning-only termination. -/
theorem c2_counterexample :
    wExtNF.aw.rw.toolExitCode = 0
    ∧ (runCryoatomMain (autoSubWorld wExtNF.aw)).2 = 0
    ∧ wExtNF.aw.outCifExistsAfter = false
    ∧ wExtNF.destExistsAtResolve = false
    ∧ wExtNF.outCifExistsAtResolve = false
    ∧ (autoMain wExtNF.aw).2 = 1
    ∧ (extMain wExtNF).2 = 1
    ∧ (1 : Nat) ≠ 0 := by decide

/-- C2 amended: the two-candidate resolution order and the non-fatal
empty-result path hold in the external-job wrapper only — when the wrapped
auto run succeeded and both candidate paths are absent at resolution time,
the wrapper logs a warning, mounts nothing and exits 0; but in
run_cryoatom_auto.py a missing out/out.cif after a successful tool run is a
fatal exit with code 1, so an artifact that never existed ends the pipeline
fatally rather than successfully. -/
theorem c2_amended :
    (∀ (o : Bool) (df oc : String),
      resolveArtifact true o df oc = (SourceKind.published, some df))
    ∧ (∀ df oc, resolveArtifact false true df oc = (SourceKind.raw, some oc))
    ∧ (∀ df oc, resolveArtifact false false df oc = (SourceKind.notFound, none))
    ∧ (∀ w : ExtWorld, w.connectOk = true → w.projectFound = true →
        w.srcJobFound = true → w.createJobOk = true → w.autoScriptExists = true →
        (autoMain w.aw).2 = 0 →
        w.destExistsAtResolve = false → w.outCifExistsAtResolve = false →
        extMain w = ((autoMain w.aw).1 ++
          [Event.warnNoArtifact (extDestFile w) (extOutCif w)], 0))
    ∧ (∀ aw : AutoWorld, aw.scriptExists = true →
        (runCryoatomMain (autoSubWorld aw)).2 = 0 →
        aw.connectOk = true → aw.projectFound = true → aw.jobFound = true →
        aw.outCifExistsAfter = false →
        autoMain aw = ((runCryoatomMain (autoSubWorld aw)).1, 1)) := by
  refine ⟨fun o df oc => rfl, fun df oc => rfl, fun df oc => rfl, ?_, ?_⟩
  · intro w hc hp hj hcr hsc hz hd ho
    unfold extMain
    simp [hc, hp, hj, hcr, hsc, hz, hd, ho, resolveArtifact]
  · intro aw hs hz hc hp hj ho
    unfold autoMain
    simp [hs, hz, hc, hp, hj, ho]

/-- Witness for C2 amended, at a world where both candidate paths are gone at
resolution time although the auto run succeeded, and at a world where
out.cif is missing right after a successful tool run. -/
theorem c2_witness :
    (autoMain wExtRace.aw).2 = 0
    ∧ extMain wExtRace = ((autoMain wExtRace.aw).1 ++
        [Event.warnNoArtifact (extDestFile wExtRace) (extOutCif wExtRace)], 0)
    ∧ autoMain wAutoNoCif = ((runCryoatomMain (autoSubWorld wAutoNoCif)).1, 1)
    ∧ resolveArtifact false false ("d") ("o") = (SourceKind.notFound, none) :=
  ⟨by decide,
   c2_amended.2.2.2.1 wExtRace rfl rfl rfl rfl rfl (by decide) rfl rfl,
   c2_amended.2.2.2.2 wAutoNoCif rfl (by decide) rfl rfl rfl rfl,
   c2_amended.2.2.1 ("d") ("o")⟩

/-- C9: after a successful run with the artifact present, the publisher stage
always records the destination-directory creation; a failing publish copy is
fatal (exit 1); a successful copy with a failing destination-log append is a
recoverable warning, the copy event stays in the trace and the pipeline exits
0; and with both succeeding the structured log entry records the accelerator
used and the published path. -/
theorem c9_publisher (aw : AutoWorld)
    (hs : aw.scriptExists = true)
    (hrun : (runCryoatomMain (autoSubWorld aw)).2 = 0)
    (hc : aw.connectOk = true) (hp : aw.projectFound = true)
    (hj : aw.jobFound = true) (ho : aw.outCifExistsAfter = true) :
    (aw.copyOk = false → autoMain aw =
      ((runCryoatomMain (autoSubWorld aw)).1 ++
        [Event.mkdirTargetDir (autoTargetDir aw)], 1))
    ∧ (aw.copyOk = true → aw.logOk = false →
      autoMain aw = ((runCryoatomMain (autoSubWorld aw)).1 ++
        [Event.mkdirTargetDir (autoTargetDir aw),
         Event.publishCopy (autoOutCif aw) (autoDestFile aw),
         Event.warnLogFailed], 0))
    ∧ (aw.copyOk = true → aw.logOk = true →
      autoMain aw = ((runCryoatomMain (autoSubWorld aw)).1 ++
        [Event.mkdirTargetDir (autoTargetDir aw),
         Event.publishCopy (autoOutCif aw) (autoDestFile aw),
         Event.jobLogAppend (autoGpu aw) (autoDestFile aw)], 0)) := by
  refine ⟨?_, ?_, ?_⟩ <;> intro hcp <;> try intro hlg
  all_goals
    unfold autoMain
    simp [hs, hrun, hc, hp, hj, ho, hcp, List.append_assoc]
  all_goals simp [hlg]

/-- Witness for C9: log-append failure leaves a successful pipeline with the
copy event recorded; copy failure is fatal. -/
theorem c9_witness :
    autoMain wAutoLogFail = ((runCryoatomMain (autoSubWorld wAutoLogFail)).1 ++
      [Event.mkdirTargetDir (autoTargetDir wAutoLogFail),
       Event.publishCopy (autoOutCif wAutoLogFail) (autoDestFile wAutoLogFail),
       Event.warnLogFailed], 0)
    ∧ autoMain wAutoCopyFail = ((runCryoatomMain (autoSubWorld wAutoCopyFail)).1 ++
      [Event.mkdirTargetDir (autoTargetDir wAutoCopyFail)], 1) :=
  ⟨(c9_publisher wAutoLogFail rfl (by decide) rfl rfl rfl rfl).2.1 rfl rfl,
   (c9_publisher wAutoCopyFail rfl (by decide) rfl rfl rfl rfl).1 rfl⟩

end Cryoatom
